import Mathlib

/-!
Verification of the unsafe-memory-corruption demo (src/src/main.rs).

The program builds a `#[repr(C)]` struct `Frame` holding a 5-byte buffer,
a `len : u32`, a `num : i32` and a `guard : u32`.  On x86-64 the C layout
places `buffer` at offset 0, three alignment padding bytes at offsets 5-7,
`len` at offset 8, `num` at offset 12 and `guard` at offset 16, for a
total frame size of 20 bytes.  The driver runs trials for end lengths
5, 6, 8, 10 and 12: each trial writes byte value `i` at offset `i` of the
buffer base (no bounds check), capturing and diff-rendering the full
20-byte image after each write, and finally runs `safe_sum_prefix`
(sum of the first `len` buffer bytes, panicking when `len > 5`) under
`catch_unwind`.

The memory image is modelled as a `List Nat` of the frame's 20 bytes,
little-endian for the multi-byte fields.  The three padding bytes are
uninitialized in the Rust program, so they appear as parameters
`p5 p6 p7` of the model and all theorems hold for arbitrary values.
-/

/-- `BUFFER_SIZE` from the source: the declared buffer length B. -/
def BUFFER_SIZE : Nat := 5

/-- `offset_of!(Frame, buffer)`: the buffer starts the frame. -/
def BUF_OFF : Nat := 0

/-- `offset_of!(Frame, len)`: 5 buffer bytes rounded up to u32 alignment 4. -/
def LEN_OFF : Nat := 8

/-- `offset_of!(Frame, num)`. -/
def NUM_OFF : Nat := 12

/-- `offset_of!(Frame, guard)`. -/
def GUARD_OFF : Nat := 16

/-- `size_of::<u32>()` for the len field. -/
def LEN_SZ : Nat := 4

/-- `size_of::<i32>()` for the num field. -/
def NUM_SZ : Nat := 4

/-- `size_of::<u32>()` for the guard field. -/
def GUARD_SZ : Nat := 4

/-- `size_of::<Frame>()`: 20 bytes. -/
def FRAME_SIZE : Nat := 20

/-- Byte image of `Frame::new()`: buffer `[0;5]`, padding bytes `p5 p6 p7`
(uninitialized in the program, hence parameters of the model),
`len = 5`, `num = 40000 = 0x9C40`, `guard = 0xDEADBEEF`, all little-endian. -/
def frameNewBytes (p5 p6 p7 : Nat) : List Nat :=
  [0, 0, 0, 0, 0,
   p5, p6, p7,
   5, 0, 0, 0,
   0x40, 0x9C, 0, 0,
   0xEF, 0xBE, 0xAD, 0xDE]

/-- `Frame::read_len_volatile`: the little-endian u32 at offset `LEN_OFF`
of the byte image. -/
def readLen (m : List Nat) : Nat :=
  m.getD LEN_OFF 0 + 256 * m.getD (LEN_OFF + 1) 0 +
    65536 * m.getD (LEN_OFF + 2) 0 + 16777216 * m.getD (LEN_OFF + 3) 0

/-- The three formatters of the `color` module: `red` marks a byte changed
this iteration, `green` a watched pristine byte, `plain` everything else. -/
inductive Fmt
  | red
  | green
  | plain
deriving DecidableEq

/-- One token of rendered output: a `" |"` separator, or one formatted byte. -/
inductive Tok
  | sep
  | byte (fmt : Fmt) (value : Nat)
deriving DecidableEq

/-- `MemoryView`: current snapshot, per-byte corruption flags, the watched
byte ranges and the separator positions. -/
structure MemoryView where
  snapshot : List Nat
  corrupted : List Bool
  watched_ranges : List (Nat × Nat)
  separators : List Nat
deriving DecidableEq

/-- `MemoryView::new`: zero snapshot of `FRAME_SIZE` bytes, all corruption
flags cleared. -/
def MemoryView.new (w : List (Nat × Nat)) (s : List Nat) : MemoryView :=
  { snapshot := List.replicate FRAME_SIZE 0
    corrupted := List.replicate FRAME_SIZE false
    watched_ranges := w
    separators := s }

/-- `MemoryView::capture`: overwrite the snapshot with the frame's bytes. -/
def MemoryView.capture (v : MemoryView) (mem : List Nat) : MemoryView :=
  { v with snapshot := mem }

/-- `MemoryView::is_separator`. -/
def MemoryView.is_separator (v : MemoryView) (i : Nat) : Bool :=
  v.separators.contains i

/-- `MemoryView::is_watched`: does some watched half-open range contain i? -/
def MemoryView.is_watched (v : MemoryView) (i : Nat) : Bool :=
  v.watched_ranges.any fun r => decide (r.1 ≤ i) && decide (i < r.2)

/-- `MemoryView::print_byte`: optional separator token, then the byte
formatted red if it changed this iteration, green if watched and not yet
flagged corrupted, plain otherwise. -/
def MemoryView.print_byte (v : MemoryView) (i : Nat) (b : Nat)
    (changed_this_iter : Bool) : List Tok :=
  (if v.is_separator i then [Tok.sep] else []) ++
    [Tok.byte
      (if changed_this_iter then Fmt.red
       else if v.is_watched i && !(v.corrupted.getD i false) then Fmt.green
       else Fmt.plain) b]

/-- `MemoryView::print_row`: render every snapshot byte with
`changed_this_iter = false`. -/
def MemoryView.print_row (v : MemoryView) : List Tok :=
  (List.range v.snapshot.length).flatMap fun i =>
    v.print_byte i (v.snapshot.getD i 0) false

/-- `MemoryView::print_diff`: render every snapshot byte, marking it
changed when it differs from `prev`; afterwards set the corruption flag of
every position that differed.  Returns the rendered tokens and the updated
view. -/
def MemoryView.print_diff (v : MemoryView) (prev : List Nat) :
    List Tok × MemoryView :=
  let toks := (List.range v.snapshot.length).flatMap fun i =>
    v.print_byte i (v.snapshot.getD i 0)
      (decide (prev.getD i 0 ≠ v.snapshot.getD i 0))
  let corrupted := (List.range v.corrupted.length).map fun i =>
    if prev.getD i 0 ≠ v.snapshot.getD i 0 then true
    else v.corrupted.getD i false
  (toks, { v with corrupted := corrupted })

/-- `safe_sum_prefix`: read len (volatile), then sum `buffer[..len]`.
The slice panics when `len > BUFFER_SIZE`; the panic is modelled as
`none`. The buffer occupies the first `BUFFER_SIZE` bytes of the image. -/
def safe_sum_prefix (m : List Nat) : Option Nat :=
  let len := readLen m
  if len ≤ BUFFER_SIZE then
    some ((m.take len).foldl (fun a b => a + b) 0)
  else none

/-- One arm of the driver's `match` on `catch_unwind`: a numeric sum, or
the panic report. -/
inductive TrialReport
  | sum (value : Nat)
  | panicked
deriving DecidableEq

/-- `catch_unwind(|| safe_sum_prefix(&frame))` followed by the driver's
`match`: `Ok(sum)` prints the sum, `Err(_)` prints the panic message. -/
def trialReport (m : List Nat) : TrialReport :=
  match safe_sum_prefix m with
  | some s => TrialReport.sum s
  | none => TrialReport.panicked

/-- The `WATCHED` constant of `main`: len, num and guard field ranges. -/
def WATCHED : List (Nat × Nat) :=
  [(LEN_OFF, LEN_OFF + LEN_SZ),
   (NUM_OFF, NUM_OFF + NUM_SZ),
   (GUARD_OFF, GUARD_OFF + GUARD_SZ)]

/-- The `SEPS` constant of `main`: end of buffer, then the starts of len,
num and guard. -/
def SEPS : List Nat :=
  [BUF_OFF + BUFFER_SIZE, LEN_OFF, NUM_OFF, GUARD_OFF]

/-- Modelled from the spec's words for claim C4: "the start offset of each
field after the first", i.e. the offsets of the length, secondary and
guard fields.  Used to compare the spec's description against `SEPS`. -/
def fieldStartOffsets : List Nat :=
  [LEN_OFF, NUM_OFF, GUARD_OFF]

/-- `*buf_ptr.add(off) = val as u8`: store `val % 256` at byte offset
`off` of the frame image (no bounds check; offsets at or beyond
`BUFFER_SIZE` land in padding and the adjacent fields). -/
def writeByte (m : List Nat) (off val : Nat) : List Nat :=
  m.set off (val % 256)

/-- The per-trial mutable state of the driver loop: the frame's byte
image, the view, the `prev` snapshot, and the log of diff renders. -/
structure TrialState where
  mem : List Nat
  view : MemoryView
  prev : List Nat
  log : List (List Tok)

/-- One iteration of the driver's write loop: unchecked write of byte `i`
at offset `BUF_OFF + i`, capture, diff against `prev`, advance `prev`. -/
def trialStep (s : TrialState) (i : Nat) : TrialState :=
  let mem := writeByte s.mem (BUF_OFF + i) i
  let view := s.view.capture mem
  let r := view.print_diff s.prev
  { mem := mem, view := r.2, prev := view.snapshot, log := s.log ++ [r.1] }

/-- Trial setup: fresh frame, fresh view, initial capture, `prev`
initialized to the captured snapshot (the init row render is pure and
does not change the state). -/
def trialInit (p5 p6 p7 : Nat) : TrialState :=
  let mem := frameNewBytes p5 p6 p7
  let view := (MemoryView.new WATCHED SEPS).capture mem
  { mem := mem, view := view, prev := view.snapshot, log := [] }

/-- A whole trial for end length `e`: the write loop over offsets
`0, 1, ..., e-1`. -/
def runTrial (p5 p6 p7 e : Nat) : TrialState :=
  (List.range e).foldl trialStep (trialInit p5 p6 p7)

/-- The driver's list of end lengths: `for end in [5, 6, 8, 10, 12]`. -/
def DRIVER_ENDS : List Nat := [5, 6, 8, 10, 12]

/-! ## Index helper lemmas -/

theorem list_getD_set (l : List Nat) (i j a : Nat) :
    (l.set i a).getD j 0 = if i = j ∧ i < l.length then a else l.getD j 0 := by
  by_cases h1 : i = j
  · subst h1
    by_cases h2 : i < l.length
    · simp [List.getD_eq_getElem?_getD, List.getElem?_set, h2]
    · have hn : l[i]? = none := by
        rw [List.getElem?_eq_none_iff]; omega
      simp [List.getD_eq_getElem?_getD, List.getElem?_set, h2, hn]
  · simp [List.getD_eq_getElem?_getD, List.getElem?_set, h1]

theorem list_getD_map_range (f : Nat → Bool) (n j : Nat) :
    ((List.range n).map f).getD j false = if j < n then f j else false := by
  by_cases h : j < n
  · simp [List.getD_eq_getElem?_getD, List.getElem?_map, List.getElem?_range h, h]
  · have hn : (List.range n)[j]? = none := by
      rw [List.getElem?_eq_none_iff, List.length_range]; omega
    simp [List.getD_eq_getElem?_getD, List.getElem?_map, hn, h]

theorem list_getD_replicate_false (n j : Nat) :
    (List.replicate n false).getD j false = false := by
  simp only [List.getD_eq_getElem?_getD, List.getElem?_replicate]
  split <;> rfl

/-! ## Unfolding lemmas for one driver-loop iteration -/

theorem trialStep_mem (s : TrialState) (i : Nat) :
    (trialStep s i).mem = s.mem.set (BUF_OFF + i) (i % 256) := rfl

theorem trialStep_snapshot (s : TrialState) (i : Nat) :
    (trialStep s i).view.snapshot = s.mem.set (BUF_OFF + i) (i % 256) := rfl

theorem trialStep_prev (s : TrialState) (i : Nat) :
    (trialStep s i).prev = s.mem.set (BUF_OFF + i) (i % 256) := rfl

theorem trialStep_watched (s : TrialState) (i : Nat) :
    (trialStep s i).view.watched_ranges = s.view.watched_ranges := rfl

theorem trialStep_separators (s : TrialState) (i : Nat) :
    (trialStep s i).view.separators = s.view.separators := rfl

theorem trialStep_corrupted (s : TrialState) (i : Nat) :
    (trialStep s i).view.corrupted =
      (List.range s.view.corrupted.length).map fun j =>
        if s.prev.getD j 0 ≠ (s.mem.set (BUF_OFF + i) (i % 256)).getD j 0
        then true else s.view.corrupted.getD j false := rfl

theorem if_true_else_eq_or (c : Prop) [Decidable c] (b : Bool) :
    (if c then true else b) = (decide c || b) := by
  by_cases h : c <;> simp [h]

theorem runTrial_succ (p5 p6 p7 e : Nat) :
    runTrial p5 p6 p7 (e + 1) = trialStep (runTrial p5 p6 p7 e) e := by
  simp [runTrial, List.range_succ, List.foldl_append]

/-- Full characterization of the state after `e` writes of a trial:
lengths, the snapshot/prev aliasing, the final byte at each position
(`j % 256` where written, the fresh-frame byte elsewhere) and the final
corruption flag at each position (set exactly where a write landed inside
the frame and actually changed the byte). -/
theorem runTrial_state (p5 p6 p7 e : Nat) :
    (runTrial p5 p6 p7 e).mem.length = FRAME_SIZE ∧
    (runTrial p5 p6 p7 e).view.snapshot = (runTrial p5 p6 p7 e).mem ∧
    (runTrial p5 p6 p7 e).view.corrupted.length = FRAME_SIZE ∧
    (runTrial p5 p6 p7 e).prev = (runTrial p5 p6 p7 e).mem ∧
    (runTrial p5 p6 p7 e).view.watched_ranges = WATCHED ∧
    (runTrial p5 p6 p7 e).view.separators = SEPS ∧
    (∀ j, (runTrial p5 p6 p7 e).mem.getD j 0 =
      if j < e ∧ j < FRAME_SIZE then j % 256
      else (frameNewBytes p5 p6 p7).getD j 0) ∧
    (∀ j, (runTrial p5 p6 p7 e).view.corrupted.getD j false =
      decide (j < e ∧ j < FRAME_SIZE ∧
        (frameNewBytes p5 p6 p7).getD j 0 ≠ j % 256)) := by
  induction e with
  | zero =>
      refine ⟨rfl, rfl, rfl, rfl, rfl, rfl, ?_, ?_⟩
      · intro j
        have h : (runTrial p5 p6 p7 0).mem = frameNewBytes p5 p6 p7 := rfl
        rw [h]
        simp
      · intro j
        have h : (runTrial p5 p6 p7 0).view.corrupted =
            List.replicate FRAME_SIZE false := rfl
        rw [h, list_getD_replicate_false]
        simp
  | succ e ih =>
      obtain ⟨hlen, hsnap, hclen, hprev, hw, hsep, hmem, hcorr⟩ := ih
      rw [runTrial_succ]
      refine ⟨?_, ?_, ?_, ?_, ?_, ?_, ?_, ?_⟩
      · rw [trialStep_mem, List.length_set]; exact hlen
      · rw [trialStep_snapshot, trialStep_mem]
      · rw [trialStep_corrupted, List.length_map, List.length_range]; exact hclen
      · rw [trialStep_prev, trialStep_mem]
      · rw [trialStep_watched]; exact hw
      · rw [trialStep_separators]; exact hsep
      · intro j
        have hmj := hmem j
        rw [trialStep_mem, list_getD_set, hlen]
        simp only [BUF_OFF, Nat.zero_add, FRAME_SIZE] at hmj ⊢
        by_cases hset : e = j ∧ e < 20
        · obtain ⟨hej, he20⟩ := hset
          subst hej
          rw [if_pos ⟨rfl, he20⟩, if_pos ⟨Nat.lt_succ_self e, he20⟩]
        · rw [if_neg hset, hmj]
          by_cases h3 : j < e ∧ j < 20
          · rw [if_pos h3, if_pos ⟨by omega, h3.2⟩]
          · rw [if_neg h3, if_neg]
            intro hc
            exact h3 ⟨by omega, hc.2⟩
      · intro j
        have hcj := hcorr j
        have hce := hcorr e
        have hme := hmem e
        rw [trialStep_corrupted, list_getD_map_range, hclen, hprev]
        simp only [BUF_OFF, Nat.zero_add, FRAME_SIZE] at hcj hce hme ⊢
        by_cases hj20 : j < 20
        · rw [if_pos hj20]
          simp only [list_getD_set, hlen, FRAME_SIZE]
          by_cases hset : e = j ∧ e < 20
          · obtain ⟨hej, he20⟩ := hset
            subst hej
            rw [if_pos (show e = e ∧ e < 20 from ⟨rfl, he20⟩)]
            have hmeval : (runTrial p5 p6 p7 e).mem.getD e 0 =
                (frameNewBytes p5 p6 p7).getD e 0 := by
              rw [hme, if_neg (by omega : ¬ (e < e ∧ e < 20))]
            rw [hmeval, if_true_else_eq_or, hce]
            have hfalse : decide (e < e ∧ e < 20 ∧
                (frameNewBytes p5 p6 p7).getD e 0 ≠ e % 256) = false := by
              rw [decide_eq_false_iff_not]
              intro hc
              exact absurd hc.1 (Nat.lt_irrefl e)
            rw [hfalse, Bool.or_false, decide_eq_decide]
            constructor
            · intro h
              exact ⟨Nat.lt_succ_self e, he20, h⟩
            · intro h
              exact h.2.2
          · rw [if_neg hset, if_neg (fun hc => hc rfl), hcj, decide_eq_decide]
            constructor
            · rintro ⟨a, b, c⟩
              exact ⟨by omega, b, c⟩
            · rintro ⟨a, b, c⟩
              exact ⟨by omega, b, c⟩
        · rw [if_neg hj20]
          symm
          rw [decide_eq_false_iff_not]
          intro hc
          exact hj20 hc.2.1

/-! ## Extraction lemmas -/

theorem runTrial_mem_getD (p5 p6 p7 e j : Nat) :
    (runTrial p5 p6 p7 e).mem.getD j 0 =
      if j < e ∧ j < FRAME_SIZE then j % 256
      else (frameNewBytes p5 p6 p7).getD j 0 :=
  (runTrial_state p5 p6 p7 e).2.2.2.2.2.2.1 j

theorem runTrial_corrupted_getD (p5 p6 p7 e j : Nat) :
    (runTrial p5 p6 p7 e).view.corrupted.getD j false =
      decide (j < e ∧ j < FRAME_SIZE ∧
        (frameNewBytes p5 p6 p7).getD j 0 ≠ j % 256) :=
  (runTrial_state p5 p6 p7 e).2.2.2.2.2.2.2 j

theorem frameNewBytes_getD_buffer (p5 p6 p7 j : Nat) (h : j < BUFFER_SIZE) :
    (frameNewBytes p5 p6 p7).getD j 0 = 0 := by
  simp only [BUFFER_SIZE] at h
  interval_cases j <;> rfl

theorem take5_eq (l : List Nat) (h : 5 ≤ l.length) :
    l.take 5 = [l.getD 0 0, l.getD 1 0, l.getD 2 0, l.getD 3 0, l.getD 4 0] := by
  rcases l with _ | ⟨a, _ | ⟨b, _ | ⟨c, _ | ⟨d, _ | ⟨e, t⟩⟩⟩⟩⟩ <;>
    first
      | rfl
      | (simp only [List.length] at h; omega)

/-! ## Claim C1 -/

/-- C1 counterexample: the claim says that in a trial with
`end_length <= B` no corruption flag at all is set.  In the driver's
`end_length = 5` trial, the in-buffer write of value 1 at offset 1
changes the byte from 0 to 1 and `print_diff` flags it, so the
corruption flag at position 1 is true at the end of the trial. -/
theorem C1_counterexample :
    (runTrial 0 0 0 5).view.corrupted.getD 1 false = true := by decide

/-- C1 (amended): for every trial with `end_length <= B`, the corruption
flag at position j at the end of the trial is set exactly for the buffer
positions `1 <= j < end_length`; in particular no flag in the padding or
in any watched field range (positions >= B) is set, and position 0 is
never flagged. -/
theorem C1_flags_small_trials (p5 p6 p7 e j : Nat) (h : e ≤ BUFFER_SIZE) :
    ((runTrial p5 p6 p7 e).view.corrupted.getD j false = true ↔
      1 ≤ j ∧ j < e) := by
  rw [runTrial_corrupted_getD, decide_eq_true_eq]
  simp only [BUFFER_SIZE] at h
  simp only [FRAME_SIZE]
  constructor
  · rintro ⟨a, b, c⟩
    refine ⟨?_, a⟩
    by_contra hj
    have hj0 : j = 0 := by omega
    subst hj0
    exact c rfl
  · rintro ⟨h1, h2⟩
    refine ⟨h2, by omega, ?_⟩
    have h5 : (frameNewBytes p5 p6 p7).getD j 0 = 0 :=
      frameNewBytes_getD_buffer p5 p6 p7 j (by simp only [BUFFER_SIZE]; omega)
    rw [h5, Nat.mod_eq_of_lt (by omega)]
    omega

/-- C1 witness: in the `end_length = 5` trial the flag at buffer
position 2 is set (2 lies in `[1, 5)`). -/
theorem C1_flags_small_trials_w :
    (runTrial 0 0 0 5).view.corrupted.getD 2 false = true :=
  (C1_flags_small_trials 0 0 0 5 2 (by decide)).mpr (by decide)

/-! ## Claim C2 -/

/-- C2 counterexample: the claim says the `end_length = 8` trial corrupts
the length field's low byte at the offset-5 write, leaves the read-back
length different from 5, and makes the consumer report the out-of-range
outcome.  In fact the length field starts at offset 8 (three alignment
padding bytes follow the 5-byte buffer), so the `end_length = 8` trial
never touches it: after the offset-5 write no length byte is flagged,
the read-back length is still 5 and the consumer returns the sum 10. -/
theorem C2_counterexample :
    (runTrial 170 170 170 6).view.corrupted.getD LEN_OFF false = false ∧
    readLen (runTrial 170 170 170 8).mem = 5 ∧
    (runTrial 170 170 170 8).view.corrupted.getD LEN_OFF false = false ∧
    safe_sum_prefix (runTrial 170 170 170 8).mem = some 10 ∧
    trialReport (runTrial 170 170 170 8).mem = TrialReport.sum 10 := by
  decide

/-- C2 (amended): because the length field starts at offset 8 (after 3
alignment padding bytes), the `end_length = 8` trial writes only buffer
and padding: the read-back length is still 5 and the consumer reports
sum 10.  The length field's low byte is first corrupted by the offset-8
write, which exists in trials with `end_length >= 9`: in the driver's
`end_length = 10` trial, after the offset-8 write the low length byte is
8 and flagged, the final read-back length is 2312 (not 5), and the
consumer reports the out-of-range outcome instead of a sum. -/
theorem C2_padding_shields_len (p5 p6 p7 : Nat) :
    readLen (runTrial p5 p6 p7 8).mem = 5 ∧
    trialReport (runTrial p5 p6 p7 8).mem = TrialReport.sum 10 ∧
    (runTrial p5 p6 p7 9).mem.getD LEN_OFF 0 = 8 ∧
    (runTrial p5 p6 p7 9).view.corrupted.getD LEN_OFF false = true ∧
    readLen (runTrial p5 p6 p7 10).mem = 2312 ∧
    safe_sum_prefix (runTrial p5 p6 p7 10).mem = none ∧
    trialReport (runTrial p5 p6 p7 10).mem = TrialReport.panicked := by
  have g8 : (frameNewBytes p5 p6 p7).getD 8 0 = 5 := rfl
  have g8p : (frameNewBytes p5 p6 p7)[8]?.getD 0 = 5 := rfl
  have g9p : (frameNewBytes p5 p6 p7)[9]?.getD 0 = 0 := rfl
  have g10p : (frameNewBytes p5 p6 p7)[10]?.getD 0 = 0 := rfl
  have g11p : (frameNewBytes p5 p6 p7)[11]?.getD 0 = 0 := rfl
  have h1 : readLen (runTrial p5 p6 p7 8).mem = 5 := by
    unfold readLen
    simp only [LEN_OFF]
    rw [runTrial_mem_getD, runTrial_mem_getD, runTrial_mem_getD,
      runTrial_mem_getD]
    norm_num [FRAME_SIZE, g8p, g9p, g10p, g11p]
  have htake : (runTrial p5 p6 p7 8).mem.take 5 = [0, 1, 2, 3, 4] := by
    rw [take5_eq _ (by rw [(runTrial_state p5 p6 p7 8).1]; norm_num [FRAME_SIZE])]
    rw [runTrial_mem_getD, runTrial_mem_getD, runTrial_mem_getD,
      runTrial_mem_getD, runTrial_mem_getD]
    norm_num [FRAME_SIZE]
  have hsum : safe_sum_prefix (runTrial p5 p6 p7 8).mem = some 10 := by
    unfold safe_sum_prefix
    rw [h1, if_pos (by norm_num [BUFFER_SIZE]), htake]
    rfl
  have h2 : trialReport (runTrial p5 p6 p7 8).mem = TrialReport.sum 10 := by
    unfold trialReport
    rw [hsum]
  have h3 : (runTrial p5 p6 p7 9).mem.getD LEN_OFF 0 = 8 := by
    rw [runTrial_mem_getD]
    norm_num [LEN_OFF, FRAME_SIZE]
  have h4 : (runTrial p5 p6 p7 9).view.corrupted.getD LEN_OFF false = true := by
    rw [runTrial_corrupted_getD, decide_eq_true_eq]
    simp only [LEN_OFF, FRAME_SIZE]
    refine ⟨by norm_num, by norm_num, ?_⟩
    rw [g8]
    norm_num
  have h5 : readLen (runTrial p5 p6 p7 10).mem = 2312 := by
    unfold readLen
    simp only [LEN_OFF]
    rw [runTrial_mem_getD, runTrial_mem_getD, runTrial_mem_getD,
      runTrial_mem_getD]
    norm_num [FRAME_SIZE, g10p, g11p]
  have h6 : safe_sum_prefix (runTrial p5 p6 p7 10).mem = none := by
    unfold safe_sum_prefix
    rw [h5, if_neg (by norm_num [BUFFER_SIZE])]
  have h7 : trialReport (runTrial p5 p6 p7 10).mem = TrialReport.panicked := by
    unfold trialReport
    rw [h6]
  exact ⟨h1, h2, h3, h4, h5, h6, h7⟩

/-! ## Claim C3 -/

/-- Modelled from the amended reading for claim C3: the row render
formats a byte green exactly when it is watched and its corruption flag
is unset, and plain otherwise; the changed ("red") formatter never
appears because the row render passes `changed_this_iter = false` for
every byte. -/
def render_row_spec (v : MemoryView) : List Tok :=
  (List.range v.snapshot.length).flatMap fun i =>
    (if v.is_separator i then [Tok.sep] else []) ++
      [Tok.byte
        (if v.is_watched i && !(v.corrupted.getD i false) then Fmt.green
         else Fmt.plain) (v.snapshot.getD i 0)]

/-- C3 counterexample: the claim says the row render uses the plain
formatter for every byte.  In the init row of any trial, position 8 (the
low byte of the watched len field, value 5, flag unset) is rendered with
the watched ("green") formatter. -/
theorem C3_counterexample :
    Tok.byte Fmt.green 5 ∈ (trialInit 0 0 0).view.print_row := by decide

/-- C3 (amended): the row render never uses the changed ("red")
formatter, but it does apply the watched-vs-plain distinction: a byte is
rendered with the watched ("green") formatter exactly when its position
lies in a watched range and its corruption flag is unset, and with the
plain formatter otherwise. -/
theorem C3_row_render_green_or_plain (v : MemoryView) :
    v.print_row = render_row_spec v ∧
    ∀ b, v.print_row.count (Tok.byte Fmt.red b) = 0 := by
  have hrow : v.print_row = render_row_spec v := by
    unfold MemoryView.print_row render_row_spec MemoryView.print_byte
    rfl
  refine ⟨hrow, ?_⟩
  intro b
  rw [List.count_eq_zero, hrow]
  intro hmem
  rw [render_row_spec, List.mem_flatMap] at hmem
  obtain ⟨i, _, htok⟩ := hmem
  rcases List.mem_append.mp htok with h1 | h2
  · by_cases hs : v.is_separator i <;> simp [hs] at h1
  · rw [List.mem_singleton] at h2
    rcases Bool.eq_false_or_eq_true
      (v.is_watched i && !(v.corrupted.getD i false)) with hw | hw <;>
    rw [hw] at h2 <;> simp at h2

/-! ## Claim C4 -/

/-- C4 counterexample: the claim says the separator positions are
exactly the field start offsets after the first field.  Position 5 (the
end of the buffer, inside the padding) is a separator position of `SEPS`
but is not a field start offset. -/
theorem C4_counterexample :
    SEPS.contains 5 = true ∧ fieldStartOffsets.contains 5 = false := by
  decide

/-- C4 (amended): the separator positions are the field start offsets
after the first field (len, num, guard) plus the end-of-buffer offset
`BUF_OFF + BUFFER_SIZE` (which, because of alignment padding, is not a
field start); a separator token is emitted immediately before the byte
at each such position during rendering. -/
theorem C4_separator_positions (i : Nat) :
    (i ∈ SEPS ↔ (i = BUF_OFF + BUFFER_SIZE ∨ i ∈ fieldStartOffsets)) ∧
    ∀ (v : MemoryView) (b : Nat) (c : Bool), v.is_separator i = true →
      (v.print_byte i b c).getD 0 (Tok.byte Fmt.plain 0) = Tok.sep := by
  constructor
  · simp [SEPS, fieldStartOffsets]
  · intro v b c h
    simp [MemoryView.print_byte, h]

/-- C4 witness: position 8 (`LEN_OFF`) is a separator position, and in a
concrete view the token emitted immediately before the byte at
position 8 is the separator token. -/
theorem C4_separator_positions_w :
    ((trialInit 0 0 0).view.print_byte 8 0 false).getD 0
      (Tok.byte Fmt.plain 0) = Tok.sep :=
  (C4_separator_positions 8).2 (trialInit 0 0 0).view 0 false (by decide)

/-! ## Claim C5 -/

/-- C5: the consumer returns the sum of the first `len` buffer bytes
when the length field's value is at most `BUFFER_SIZE`, fails with the
out-of-range condition exactly when the value exceeds `BUFFER_SIZE`, and
the call-site conversion reports that failure as the distinguished
`panicked` outcome rather than a numeric sum (and a sum otherwise). -/
theorem C5_consumer (m : List Nat) :
    (readLen m ≤ BUFFER_SIZE →
      safe_sum_prefix m =
        some ((m.take (readLen m)).foldl (fun a b => a + b) 0)) ∧
    ( safe_sum_prefix m = none ↔ BUFFER_SIZE < readLen m) ∧
    (trialReport m = TrialReport.panicked ↔ BUFFER_SIZE < readLen m) ∧
    (∀ s, trialReport m = TrialReport.sum s ↔ safe_sum_prefix m = some s) := by
  by_cases h : readLen m ≤ BUFFER_SIZE
  · have hs : safe_sum_prefix m =
        some ((m.take (readLen m)).foldl (fun a b => a + b) 0) := by
      unfold safe_sum_prefix
      rw [if_pos h]
    refine ⟨fun _ => hs, ?_, ?_, ?_⟩
    · rw [hs]
      simp [Nat.not_lt.mpr h]
    · unfold trialReport
      rw [hs]
      simp [Nat.not_lt.mpr h]
    · intro s
      unfold trialReport
      rw [hs]
      simp
  · have hlt : BUFFER_SIZE < readLen m := Nat.lt_of_not_le h
    have hs : safe_sum_prefix m = none := by
      unfold safe_sum_prefix
      rw [if_neg h]
    refine ⟨fun hc => absurd hc h, ?_, ?_, ?_⟩
    · rw [hs]
      simp [hlt]
    · unfold trialReport
      rw [hs]
      simp [hlt]
    · intro s
      unfold trialReport
      rw [hs]
      simp

/-- C5 witness: on the fresh frame (len = 5 ≤ B) the consumer returns
the sum of the first five buffer bytes. -/
theorem C5_consumer_w :
    safe_sum_prefix (frameNewBytes 0 0 0) =
      some (((frameNewBytes 0 0 0).take
        (readLen (frameNewBytes 0 0 0))).foldl (fun a b => a + b) 0) :=
  (C5_consumer (frameNewBytes 0 0 0)).1 (by decide)

/-! ## Claim C6 -/

/-- C6: in the `end_length = B = 5` trial the write loop fills the
buffer with the values 0..4, the length field still reads back its
initial value B, and the consumer succeeds with sum
0 + 1 + 2 + 3 + 4 = 10. -/
theorem C6_full_buffer_trial (p5 p6 p7 : Nat) :
    (runTrial p5 p6 p7 BUFFER_SIZE).mem.take BUFFER_SIZE = [0, 1, 2, 3, 4] ∧
    readLen (runTrial p5 p6 p7 BUFFER_SIZE).mem = BUFFER_SIZE ∧
    safe_sum_prefix (runTrial p5 p6 p7 BUFFER_SIZE).mem = some 10 ∧
    trialReport (runTrial p5 p6 p7 BUFFER_SIZE).mem = TrialReport.sum 10 :=
  ⟨rfl, rfl, rfl, rfl⟩

/-! ## Claim C7 -/

/-- C7: in every trial with `end_length > B` (within the frame), at
least one corruption flag is set at the end, and among the positions at
or beyond the buffer boundary the flags are set exactly at the offsets
in `[B, end_length)` whose byte value actually changed (the written
value `j % 256` differs from the fresh frame's byte there). -/
theorem C7_oob_trials (p5 p6 p7 e : Nat) (h1 : BUFFER_SIZE < e)
    (h2 : e ≤ FRAME_SIZE) :
    (∃ j, (runTrial p5 p6 p7 e).view.corrupted.getD j false = true) ∧
    (∀ j, BUFFER_SIZE ≤ j →
      ((runTrial p5 p6 p7 e).view.corrupted.getD j false = true ↔
        (j < e ∧ (frameNewBytes p5 p6 p7).getD j 0 ≠ j % 256))) := by
  simp only [BUFFER_SIZE, FRAME_SIZE] at h1 h2
  constructor
  · refine ⟨1, ?_⟩
    rw [runTrial_corrupted_getD, decide_eq_true_eq]
    refine ⟨by omega, by norm_num [FRAME_SIZE], ?_⟩
    have hg : (frameNewBytes p5 p6 p7).getD 1 0 = 0 := rfl
    rw [hg]
    norm_num
  · intro j hj
    rw [runTrial_corrupted_getD, decide_eq_true_eq]
    simp only [FRAME_SIZE]
    constructor
    · rintro ⟨a, _, c⟩
      exact ⟨a, c⟩
    · rintro ⟨a, c⟩
      exact ⟨a, by omega, c⟩

/-- C7 witness: in the `end_length = 6` trial over a frame whose
padding byte at offset 5 is 9, the out-of-bounds write at offset 5
changes that byte (9 to 5) and its corruption flag is set. -/
theorem C7_oob_trials_w :
    (runTrial 9 9 9 6).view.corrupted.getD 5 false = true :=
  ((C7_oob_trials 9 9 9 6 (by decide) (by decide)).2 5 (by decide)).mpr
    (by decide)

/-! ## Claim C8 -/

/-- Modelled from the spec's words for claim C8: the diff render
classifies each position in fixed priority order — changed (red) when
the byte differs from the previous snapshot, else watched-pristine
(green) when the position lies in a watched range and its flag is not
yet set, else plain. -/
def render_diff_spec (v : MemoryView) (prev : List Nat) : List Tok :=
  (List.range v.snapshot.length).flatMap fun i =>
    (if v.is_separator i then [Tok.sep] else []) ++
      [Tok.byte
        (if prev.getD i 0 ≠ v.snapshot.getD i 0 then Fmt.red
         else if v.is_watched i && !(v.corrupted.getD i false) then Fmt.green
         else Fmt.plain) (v.snapshot.getD i 0)]

theorem list_getD_ge (l : List Bool) (i : Nat) (h : l.length ≤ i) :
    l.getD i false = false := by
  rw [List.getD_eq_getElem?_getD, List.getElem?_eq_none_iff.mpr h]
  rfl

/-- C8: the diff render classifies every byte in the fixed priority
order changed-over-watched-over-plain (the classification reads the
corruption flags before they are updated), and the flag update sets the
flag at exactly the in-range positions where the byte differs from the
previous snapshot, keeping every flag that was already set. -/
theorem C8_diff_classification (v : MemoryView) (prev : List Nat) :
    (v.print_diff prev).1 = render_diff_spec v prev ∧
    ∀ i, (v.print_diff prev).2.corrupted.getD i false =
      (v.corrupted.getD i false ||
        decide (i < v.corrupted.length ∧
          prev.getD i 0 ≠ v.snapshot.getD i 0)) := by
  constructor
  · show ((List.range v.snapshot.length).flatMap fun i =>
        v.print_byte i (v.snapshot.getD i 0)
          (decide (prev.getD i 0 ≠ v.snapshot.getD i 0))) =
      render_diff_spec v prev
    unfold render_diff_spec
    congr 1
    funext i
    by_cases hp : prev.getD i 0 ≠ v.snapshot.getD i 0 <;>
      simp [MemoryView.print_byte, hp]
  · intro i
    show ((List.range v.corrupted.length).map fun j =>
        if prev.getD j 0 ≠ v.snapshot.getD j 0 then true
        else v.corrupted.getD j false).getD i false = _
    rw [list_getD_map_range]
    by_cases h : i < v.corrupted.length
    · rw [if_pos h]
      by_cases hne : prev.getD i 0 ≠ v.snapshot.getD i 0
      · rw [if_pos hne]
        have hc : (i < v.corrupted.length ∧
            prev.getD i 0 ≠ v.snapshot.getD i 0) := ⟨h, hne⟩
        rw [decide_eq_true hc, Bool.or_true]
      · rw [if_neg hne]
        have hc : ¬ (i < v.corrupted.length ∧
            prev.getD i 0 ≠ v.snapshot.getD i 0) := fun hx => hne hx.2
        rw [decide_eq_false hc, Bool.or_false]
    · rw [if_neg h]
      have h1 : v.corrupted.getD i false = false :=
        list_getD_ge _ _ (Nat.le_of_not_lt h)
      have h2 : ¬ (i < v.corrupted.length ∧
          prev.getD i 0 ≠ v.snapshot.getD i 0) := fun hx => h hx.1
      rw [h1, decide_eq_false h2, Bool.or_false]

/-! ## Claim C9 -/

/-- The operations a trial can apply to a `MemoryView` after
construction: capture, row render (pure, returns only tokens) and diff
render (returns tokens and the updated view). -/
inductive ViewOp
  | capture (mem : List Nat)
  | render_row
  | render_diff (prev : List Nat)

/-- State effect of each view operation: capture replaces the snapshot,
the row render changes nothing, the diff render updates the flags. -/
def applyViewOp (v : MemoryView) : ViewOp → MemoryView
  | ViewOp.capture m => v.capture m
  | ViewOp.render_row => v
  | ViewOp.render_diff p => (v.print_diff p).2

theorem applyViewOp_keeps_flag (v : MemoryView) (op : ViewOp) (i : Nat)
    (h : v.corrupted.getD i false = true) :
    (applyViewOp v op).corrupted.getD i false = true := by
  cases op with
  | capture m => exact h
  | render_row => exact h
  | render_diff p =>
      show ((List.range v.corrupted.length).map fun j =>
          if p.getD j 0 ≠ v.snapshot.getD j 0 then true
          else v.corrupted.getD j false).getD i false = true
      rw [list_getD_map_range]
      have hlen : i < v.corrupted.length := by
        by_contra hc
        rw [list_getD_ge _ _ (Nat.le_of_not_lt hc)] at h
        exact Bool.false_ne_true h
      rw [if_pos hlen]
      by_cases hne : p.getD i 0 ≠ v.snapshot.getD i 0
      · rw [if_pos hne]
      · rw [if_neg hne]
        exact h

theorem viewOps_keep_flag (ops : List ViewOp) :
    ∀ (v : MemoryView) (i : Nat), v.corrupted.getD i false = true →
      (ops.foldl applyViewOp v).corrupted.getD i false = true := by
  induction ops with
  | nil =>
      intro v i h
      exact h
  | cons op rest ih =>
      intro v i h
      exact ih (applyViewOp v op) i (applyViewOp_keeps_flag v op i h)

/-- C9: corruption flags are monotonic within a trial — capture touches
only the snapshot (flags unchanged), a single diff render keeps every
set flag, and any sequence of capture / row render / diff render
operations keeps every set flag set. -/
theorem C9_flags_monotonic (v : MemoryView) (mem prev : List Nat)
    (ops : List ViewOp) (i : Nat) (h : v.corrupted.getD i false = true) :
    (v.capture mem).corrupted = v.corrupted ∧
    ((v.print_diff prev).2).corrupted.getD i false = true ∧
    (ops.foldl applyViewOp v).corrupted.getD i false = true :=
  ⟨rfl, applyViewOp_keeps_flag v (ViewOp.render_diff prev) i h,
    viewOps_keep_flag ops v i h⟩

/-- C9 witness: a view with its flag at position 0 set keeps that flag
through a capture, a row render and a diff render. -/
theorem C9_flags_monotonic_w :
    (([ViewOp.capture [3], ViewOp.render_row,
        ViewOp.render_diff [4]].foldl applyViewOp
      ⟨[7], [true], [], []⟩).corrupted.getD 0 false = true) :=
  (C9_flags_monotonic ⟨[7], [true], [], []⟩ [3] [4]
    [ViewOp.capture [3], ViewOp.render_row, ViewOp.render_diff [4]] 0
    (by decide)).2.2

/-! ## Claim C10 -/

/-- C10: the write at offset 0 stores byte 0 into position 0, which the
fresh frame already holds as 0; the first diff of the trial therefore
renders position 0 with the plain formatter (no change reported), and
the corruption flag at position 0 is still unset at the end of the
trial, for every end length in the driver's list. -/
theorem C10_position_zero (p5 p6 p7 e : Nat) (h : e ∈ DRIVER_ENDS) :
    (trialStep (trialInit p5 p6 p7) 0).mem.getD 0 0 = 0 ∧
    (frameNewBytes p5 p6 p7).getD 0 0 = 0 ∧
    ((runTrial p5 p6 p7 e).log.getD 0 []).getD 0 Tok.sep =
      Tok.byte Fmt.plain 0 ∧
    (runTrial p5 p6 p7 e).view.corrupted.getD 0 false = false := by
  refine ⟨rfl, rfl, ?_, ?_⟩
  · simp only [DRIVER_ENDS] at h
    fin_cases h <;> rfl
  · rw [runTrial_corrupted_getD, decide_eq_false_iff_not]
    intro hc
    exact hc.2.2 rfl

/-- C10 witness: the `end_length = 5` trial renders position 0 of its
first diff with the plain formatter and ends with the flag at
position 0 unset. -/
theorem C10_position_zero_w :
    ((runTrial 0 0 0 5).log.getD 0 []).getD 0 Tok.sep =
      Tok.byte Fmt.plain 0 ∧
    (runTrial 0 0 0 5).view.corrupted.getD 0 false = false :=
  ⟨(C10_position_zero 0 0 0 5 (by decide)).2.2.1,
    (C10_position_zero 0 0 0 5 (by decide)).2.2.2⟩
